import Mathlib

/-!
Verification of the forest-loss / carbon-emission Earth Engine script
(`src/script.js`) against its specification.

The script manipulates lazily evaluated rasters: grids of numeric values in
which a pixel may be masked (undefined).  We embed a raster as a function
from pixels to `Option` values (`none` = masked).  Band stacks are lists of
name-tagged rasters built by the same folds as the script's `for` loops, and
band selection is lookup by name.  The expression language's floating-point
power operator `**` is embedded as an abstract parameter function `rpow`;
all other arithmetic is exact rational arithmetic.
-/

/-- A pixel location on the fixed 30 m grid. -/
abbrev Pixel : Type := ℤ × ℤ

/-- A single-band raster: a value per pixel, `none` where masked. -/
abbrev Raster (α : Type) : Type := Pixel → Option α

/-- Band names of the multi-band stacks built by the script.  The script names
bands by string concatenation (`'fc'+(k+2000)` and so on); we model the name
space as a tag plus the calendar year, which the string encoding determines
uniquely. -/
inductive BandName : Type
  | fc (y : ℤ)
  | fl (y : ℤ)
  | cb (y : ℤ)
  | ce (y : ℤ)
deriving DecidableEq

/-- A multi-band raster: an ordered list of named bands (`addBands` appends). -/
abbrev MultiBand : Type := List (BandName × Raster ℚ)

/-- The raster with every pixel masked (`ee.Image().select()` has no data). -/
def emptyRaster : Raster ℚ := fun _ => none

/-- `stack.select(name)`: the first band carrying the name.  The script only
ever selects bands that are present; a missing band is modelled as the empty
raster. -/
def selectBand (mb : MultiBand) (n : BandName) : Raster ℚ :=
  match mb.find? (fun b => decide (b.1 = n)) with
  | some b => b.2
  | none => emptyRaster

/-- `ee.Image(c)`: a constant image, defined at every pixel. -/
def constImage (c : ℚ) : Raster ℚ := fun _ => some c

/-- `img.updateMask(m)`: a pixel survives where it was defined and the mask is
defined with a nonzero value; where the mask is masked or zero the result is
masked. -/
def updateMask {α : Type} (img : Raster α) (m : Raster ℚ) : Raster α :=
  fun p =>
    match m p with
    | some v => if v ≠ 0 then img p else none
    | none => none

/-- `img.unmask(c)`: fill every masked pixel with the constant `c`. -/
def unmask {α : Type} (img : Raster α) (c : α) : Raster α :=
  fun p => some ((img p).getD c)

/-- `img.gte(c)` on a rational-valued image: 1 where the value is at least
`c`, 0 otherwise, masked where the image is masked. -/
def gteQ (img : Raster ℚ) (c : ℚ) : Raster ℚ :=
  fun p => (img p).map (fun v => if c ≤ v then 1 else 0)

/-- `img.gte(c)` on the integer-valued loss-year image. -/
def gteZ (img : Raster ℤ) (c : ℤ) : Raster ℚ :=
  fun p => (img p).map (fun v => if c ≤ v then 1 else 0)

/-- `img.eq(c)` on the integer-valued loss-year image. -/
def eqZ (img : Raster ℤ) (c : ℤ) : Raster ℚ :=
  fun p => (img p).map (fun v => if v = c then 1 else 0)

/-- `img.eq(c)` on a rational-valued image. -/
def eqQ (img : Raster ℚ) (c : ℚ) : Raster ℚ :=
  fun p => (img p).map (fun v => if v = c then 1 else 0)

/-- `img.neq(c)` on a rational-valued image. -/
def neqQ (img : Raster ℚ) (c : ℚ) : Raster ℚ :=
  fun p => (img p).map (fun v => if v ≠ c then 1 else 0)

/-- `a.multiply(b)`: pointwise product, masked where either factor is masked. -/
def multiplyR (a b : Raster ℚ) : Raster ℚ :=
  fun p =>
    match a p, b p with
    | some x, some y => some (x * y)
    | _, _ => none

/-- `base.expression(e, ...)` with one named input image: apply `f` pointwise,
masked where the input is masked. -/
def expr1 (f : ℚ → ℚ) (i : Raster ℚ) : Raster ℚ := fun p => (i p).map f

/-- `base.expression(e, ...)` with two named input images: masked where either
input is masked. -/
def expr2 (f : ℚ → ℚ → ℚ) (i j : Raster ℚ) : Raster ℚ :=
  fun p =>
    match i p, j p with
    | some a, some b => some (f a b)
    | _, _ => none

/-- The script's inputs: the Hansen bands, the above-ground-biomass mosaic,
the pixel-area image, and the user configuration of lines 30-32.  Dataset
loading is an external collaborator, so these are parameters.  `rpow` is the
expression language's `**` operator, kept abstract. -/
structure Env where
  treecover2000 : Raster ℚ
  lossyear : Raster ℤ
  agb : Raster ℚ
  rpow : ℚ → ℚ → ℚ
  pixelArea : Pixel → ℚ
  tree_cover : ℚ
  yr_str : ℤ
  yr_end : ℤ

/-- Line 85: `bgb = agb.expression('0.489 * BIO**(0.89)', {BIO: agb})`. -/
def bgb (env : Env) : Raster ℚ :=
  expr1 (fun b => 489/1000 * env.rpow b (89/100)) env.agb

/-- Line 88: `tbcarbon = agb.expression('(bgb + abg) * 0.5', ...)`. -/
def tbcarbon (env : Env) : Raster ℚ :=
  expr2 (fun b a => (b + a) * (1/2)) (bgb env) env.agb

/-- Line 92: `teco2 = agb.expression('totalcarbon * 3.67', ...)`. -/
def teco2 (env : Env) : Raster ℚ :=
  expr1 (fun t => t * (367/100)) (tbcarbon env)

/-- Lines 95-97: the baseline forest mask, a constant-1 image masked by the
canopy-threshold test and by `lossyear.gte(yr_str-2000+1).unmask(1)`. -/
def fc_str (env : Env) : Raster ℚ :=
  updateMask
    (updateMask (constImage 1) (gteQ env.treecover2000 env.tree_cover))
    (unmask (gteZ env.lossyear (env.yr_str - 2000 + 1)) 1)

/-- The loop counters of lines 108, 114 and 126: `k` runs from `s+1` to `e`
where `s = yr_str-2000` and `e = yr_end-2000`. -/
def kList (s e : ℤ) : List ℤ :=
  (List.range (e - s).toNat).map (fun (i : ℕ) => s + 1 + (i : ℤ))

/-- The loop counters of line 120: `k` runs from `s` to `e` inclusive. -/
def kList0 (s e : ℤ) : List ℤ :=
  (List.range (e - s + 1).toNat).map (fun (i : ℕ) => s + (i : ℤ))

/-- Line 109: loss in epoch year `k`, scoped to the baseline mask. -/
def fl_band (env : Env) (k : ℤ) : Raster ℚ :=
  updateMask (fc_str env) (eqZ env.lossyear k)

/-- Lines 107-110: the per-year forest-loss stack. -/
def fl_stack (env : Env) : MultiBand :=
  (kList (env.yr_str - 2000) (env.yr_end - 2000)).foldl
    (fun acc k => acc ++ [(BandName.fl (k + 2000), fl_band env k)]) []

/-- One iteration of the forest-cover loop (lines 115-116): select the prior
year's band from the accumulated stack, mask out this year's loss, append. -/
def fc_step (env : Env) (acc : MultiBand) (k : ℤ) : MultiBand :=
  acc ++ [(BandName.fc (k + 2000),
    updateMask (selectBand acc (BandName.fc (k + 2000 - 1)))
      (neqQ (unmask (selectBand (fl_stack env) (BandName.fl (k + 2000))) 0) 1))]

/-- The forest-cover loop run with explicit bounds `s`, `e`. -/
def fc_stack_go (env : Env) (s e : ℤ) : MultiBand :=
  (kList s e).foldl (fc_step env) [(BandName.fc (s + 2000), fc_str env)]

/-- Lines 113-116: the forest-cover stack, seeded with the baseline band. -/
def fc_stack (env : Env) : MultiBand :=
  fc_stack_go env (env.yr_str - 2000) (env.yr_end - 2000)

/-- Line 121: standing carbon where the year's forest band equals 1. -/
def cb_band (env : Env) (k : ℤ) : Raster ℚ :=
  updateMask (tbcarbon env) (eqQ (selectBand (fc_stack env) (BandName.fc (k + 2000))) 1)

/-- Lines 119-122: the per-year carbon-stock stack. -/
def cb_stack (env : Env) : MultiBand :=
  (kList0 (env.yr_str - 2000) (env.yr_end - 2000)).foldl
    (fun acc k => acc ++ [(BandName.cb (k + 2000), cb_band env k)]) []

/-- Line 127: emissions where the year's loss band equals 1. -/
def ce_band (env : Env) (k : ℤ) : Raster ℚ :=
  updateMask (teco2 env) (eqQ (selectBand (fl_stack env) (BandName.fl (k + 2000))) 1)

/-- Lines 125-128: the per-year emissions stack. -/
def ce_stack (env : Env) : MultiBand :=
  (kList (env.yr_str - 2000) (env.yr_end - 2000)).foldl
    (fun acc k => acc ++ [(BandName.ce (k + 2000), ce_band env k)]) []

/-- Line 131: the combined multi-band output stack. -/
def output (env : Env) : MultiBand :=
  fc_stack env ++ fl_stack env ++ cb_stack env ++ ce_stack env

/-- `ee.Image.pixelArea().divide(10000)`: pixel area in hectares, defined at
every pixel. -/
def pixelAreaHa (env : Env) : Raster ℚ := fun p => some (env.pixelArea p / 10000)

/-- Line 134: every band of the output multiplied by the per-pixel hectare
factor. -/
def areas (env : Env) : MultiBand :=
  (output env).map (fun b => (b.1, multiplyR b.2 (pixelAreaHa env)))

/-- A region feature: its geometry area in square metres, the 30 m sample
grid of pixels inside its geometry, and the two optional area attributes the
script may attach. -/
structure Feature where
  geomArea : ℚ
  pixels : List Pixel
  ha : Option ℚ
  area_ha : Option ℚ

/-- Lines 39-41: the first `addArea`, attaching `ha` = area in m2 times
0.0001. -/
def addArea (f : Feature) : Feature :=
  { f with ha := some (f.geomArea * (1/10000)) }

/-- Lines 68-70: the second `addArea`, which rebinds the same variable and
attaches `area_ha` instead. -/
def addAreaV2 (f : Feature) : Feature :=
  { f with area_ha := some (f.geomArea * (1/10000)) }

/-- The sum reducer over a region: masked pixels contribute nothing. -/
def sumOver (f : Feature) (r : Raster ℚ) : ℚ :=
  (f.pixels.map (fun p => (r p).getD 0)).sum

/-- Line 137: `reduceRegions` with the sum reducer, one row per region
carrying the feature's attributes plus one sum per band. -/
def reduceRegions (img : MultiBand) (regions : List Feature) :
    List (Feature × List (BandName × ℚ)) :=
  regions.map (fun f => (f, img.map (fun b => (b.1, sumOver f b.2))))

/-- Lines 56, 73 and 137 as a function of the late `addArea` binding: the
collection `sa_area` is built (line 56) from the first `addArea`, the line-73
rebinding of `sa` maps the late function over the same filtered collection,
and the reducer is handed `sa_area`.  The line-73 collection is never read
again. -/
def scriptStats (env : Env) (sa0 : List Feature) (lateAddArea : Feature → Feature) :
    List (Feature × List (BandName × ℚ)) :=
  let sa_area := sa0.map addArea
  let _sa := sa0.map lateAddArea
  reduceRegions (areas env) sa_area

/-- Line 137: the exported statistics, with the late binding being the second
`addArea` of lines 68-70. -/
def stats (env : Env) (sa0 : List Feature) : List (Feature × List (BandName × ℚ)) :=
  scriptStats env sa0 addAreaV2

/-- Modelled from the code: lines 30-32 bind `tree_cover`, `yr_str` and
`yr_end` directly and the script contains no validation of any of them, so
the configuration check trivially accepts every configuration. -/
def validateConfig (_env : Env) : Except String Unit := Except.ok ()

/-- Modelled from the spec (section 7): a configuration is valid when the
years lie in the Hansen epoch, are ordered, and the canopy threshold is a
percentage. -/
def configValid (env : Env) : Prop :=
  2000 ≤ env.yr_str ∧ env.yr_str ≤ env.yr_end ∧ env.yr_end ≤ 2021 ∧
    0 ≤ env.tree_cover ∧ env.tree_cover ≤ 100

instance (env : Env) : Decidable (configValid env) := by
  unfold configValid; infer_instance

/-! ## Helper lemmas about band stacks -/

theorem bands_foldl_append (f : ℤ → BandName × Raster ℚ) (l : List ℤ) (init : MultiBand) :
    l.foldl (fun acc k => acc ++ [f k]) init = init ++ l.map f := by
  induction l generalizing init with
  | nil => simp
  | cons k t ih => simp [List.foldl_cons, ih]

theorem selectBand_cons (m : BandName) (r : Raster ℚ) (t : MultiBand) (n : BandName) :
    selectBand ((m, r) :: t) n = if m = n then r else selectBand t n := by
  by_cases h : m = n
  · subst h
    simp [selectBand, List.find?_cons_of_pos]
  · rw [if_neg h]
    unfold selectBand
    rw [List.find?_cons_of_neg]
    simp [h]

theorem selectBand_append_of_none (A B : MultiBand) (n : BandName)
    (h : A.find? (fun b => decide (b.1 = n)) = none) :
    selectBand (A ++ B) n = selectBand B n := by
  unfold selectBand
  rw [List.find?_append, h]
  rfl

theorem selectBand_append_of_some (A B : MultiBand) (n : BandName) (b : BandName × Raster ℚ)
    (h : A.find? (fun b => decide (b.1 = n)) = some b) :
    selectBand (A ++ B) n = selectBand A n := by
  unfold selectBand
  rw [List.find?_append, h]
  rfl

theorem mem_kList (s e k : ℤ) : k ∈ kList s e ↔ s + 1 ≤ k ∧ k ≤ e := by
  unfold kList
  simp only [List.mem_map, List.mem_range]
  constructor
  · rintro ⟨i, hi, rfl⟩
    omega
  · intro h
    exact ⟨(k - (s + 1)).toNat, by omega, by omega⟩

theorem mem_kList0 (s e k : ℤ) : k ∈ kList0 s e ↔ s ≤ k ∧ k ≤ e := by
  unfold kList0
  simp only [List.mem_map, List.mem_range]
  constructor
  · rintro ⟨i, hi, rfl⟩
    omega
  · intro h
    exact ⟨(k - s).toNat, by omega, by omega⟩

theorem selectBand_map_tag (tag : ℤ → BandName) (g : ℤ → Raster ℚ)
    (htag : Function.Injective tag) (l : List ℤ) (k : ℤ) (hk : k ∈ l) :
    selectBand (l.map (fun j => (tag j, g j))) (tag k) = g k := by
  induction l with
  | nil => simp at hk
  | cons a t ih =>
    by_cases h : a = k
    · subst h
      simp [List.map_cons, selectBand_cons]
    · have hne : tag a ≠ tag k := fun hc => h (htag hc)
      rw [List.map_cons, selectBand_cons, if_neg hne]
      rcases List.mem_cons.1 hk with h1 | h2
      · exact absurd h1.symm h
      · exact ih h2

theorem fl_stack_eq (env : Env) :
    fl_stack env = (kList (env.yr_str - 2000) (env.yr_end - 2000)).map
      (fun k => (BandName.fl (k + 2000), fl_band env k)) := by
  unfold fl_stack
  rw [bands_foldl_append]
  simp

theorem cb_stack_eq (env : Env) :
    cb_stack env = (kList0 (env.yr_str - 2000) (env.yr_end - 2000)).map
      (fun k => (BandName.cb (k + 2000), cb_band env k)) := by
  unfold cb_stack
  rw [bands_foldl_append]
  simp

theorem ce_stack_eq (env : Env) :
    ce_stack env = (kList (env.yr_str - 2000) (env.yr_end - 2000)).map
      (fun k => (BandName.ce (k + 2000), ce_band env k)) := by
  unfold ce_stack
  rw [bands_foldl_append]
  simp

theorem fl_tag_inj : Function.Injective (fun j : ℤ => BandName.fl (j + 2000)) := by
  intro a b hab
  simp only [BandName.fl.injEq] at hab
  omega

theorem cb_tag_inj : Function.Injective (fun j : ℤ => BandName.cb (j + 2000)) := by
  intro a b hab
  simp only [BandName.cb.injEq] at hab
  omega

theorem select_fl (env : Env) (m : ℤ) (h1 : env.yr_str - 2000 + 1 ≤ m)
    (h2 : m ≤ env.yr_end - 2000) :
    selectBand (fl_stack env) (BandName.fl (m + 2000)) = fl_band env m := by
  rw [fl_stack_eq]
  exact selectBand_map_tag _ _ fl_tag_inj _ m ((mem_kList _ _ _).2 ⟨by omega, h2⟩)

theorem select_cb (env : Env) (m : ℤ) (h1 : env.yr_str - 2000 ≤ m)
    (h2 : m ≤ env.yr_end - 2000) :
    selectBand (cb_stack env) (BandName.cb (m + 2000)) = cb_band env m := by
  rw [cb_stack_eq]
  exact selectBand_map_tag _ _ cb_tag_inj _ m ((mem_kList0 _ _ _).2 ⟨h1, h2⟩)

/-! ## The forest-cover recurrence -/

/-- The value recurrence computed by the loop of lines 113-116: `fcN n` is the
band `fc (yr_str + n)`, obtained from the previous band by masking out the
pixels lost in epoch year `s + 1 + n`. -/
def fcN (env : Env) (s : ℤ) : ℕ → Raster ℚ
  | 0 => fc_str env
  | n + 1 =>
    updateMask (fcN env s n)
      (neqQ (unmask (selectBand (fl_stack env) (BandName.fl (s + 1 + (n : ℤ) + 2000))) 0) 1)

theorem selectBand_of_find (mb : MultiBand) (n : BandName) (b : BandName × Raster ℚ)
    (h : mb.find? (fun x => decide (x.1 = n)) = some b) : selectBand mb n = b.2 := by
  unfold selectBand
  rw [h]

theorem kList_succ (s : ℤ) (n : ℕ) :
    kList s (s + (n : ℤ) + 1) = kList s (s + (n : ℤ)) ++ [s + 1 + (n : ℤ)] := by
  unfold kList
  have h1 : (s + (n : ℤ) + 1 - s).toNat = n + 1 := by omega
  have h2 : (s + (n : ℤ) - s).toNat = n := by omega
  rw [h1, h2, List.range_succ, List.map_append]
  simp

theorem fc_stack_go_zero (env : Env) (s : ℤ) :
    fc_stack_go env s s = [(BandName.fc (s + 2000), fc_str env)] := by
  unfold fc_stack_go kList
  simp

theorem fc_stack_go_succ (env : Env) (s : ℤ) (n : ℕ) :
    fc_stack_go env s (s + (n : ℤ) + 1) =
      fc_step env (fc_stack_go env s (s + (n : ℤ))) (s + 1 + (n : ℤ)) := by
  unfold fc_stack_go
  rw [kList_succ, List.foldl_append]
  rfl

theorem fc_stack_go_names (env : Env) (s : ℤ) (n : ℕ) :
    ∀ b ∈ fc_stack_go env s (s + (n : ℤ)),
      ∃ i : ℕ, i ≤ n ∧ b.1 = BandName.fc (s + (i : ℤ) + 2000) := by
  induction n with
  | zero =>
    intro b hb
    rw [Nat.cast_zero, add_zero, fc_stack_go_zero] at hb
    rcases List.mem_singleton.1 hb with rfl
    exact ⟨0, le_refl 0, by simp⟩
  | succ n ih =>
    intro b hb
    rw [Nat.cast_succ, ← add_assoc, fc_stack_go_succ] at hb
    unfold fc_step at hb
    rcases List.mem_append.1 hb with h1 | h2
    · rcases ih b h1 with ⟨i, hi, hname⟩
      exact ⟨i, Nat.le_succ_of_le hi, hname⟩
    · rcases List.mem_singleton.1 h2 with rfl
      refine ⟨n + 1, le_refl _, ?_⟩
      simp only [BandName.fc.injEq]
      push_cast
      ring

theorem fc_stack_go_find (env : Env) (s : ℤ) (m : ℕ) :
    ∀ n : ℕ, n ≤ m →
      (fc_stack_go env s (s + (m : ℤ))).find?
          (fun b => decide (b.1 = BandName.fc (s + (n : ℤ) + 2000))) =
        some (BandName.fc (s + (n : ℤ) + 2000), fcN env s n) := by
  induction m with
  | zero =>
    intro n hn
    rcases Nat.le_zero.1 hn with rfl
    rw [Nat.cast_zero, add_zero, fc_stack_go_zero]
    rw [List.find?_cons_of_pos _ (by simp)]
    simp [fcN]
  | succ m ih =>
    intro n hn
    rw [Nat.cast_succ, ← add_assoc, fc_stack_go_succ]
    unfold fc_step
    rw [List.find?_append]
    rcases Nat.lt_or_ge n (m + 1) with hlt | hge
    · have hnm : n ≤ m := Nat.lt_succ_iff.1 hlt
      rw [ih n hnm]
      rfl
    · have hn1 : n = m + 1 := le_antisymm hn hge
      subst hn1
      have hname : BandName.fc (s + ((m + 1 : ℕ) : ℤ) + 2000) =
          BandName.fc (s + 1 + (m : ℤ) + 2000) := by
        simp only [BandName.fc.injEq]
        push_cast
        ring
      rw [hname]
      have hnone : (fc_stack_go env s (s + (m : ℤ))).find?
          (fun b => decide (b.1 = BandName.fc (s + 1 + (m : ℤ) + 2000))) = none := by
        rw [List.find?_eq_none]
        intro b hb
        rcases fc_stack_go_names env s m b hb with ⟨i, hi, hname2⟩
        simp only [hname2, decide_eq_true_eq, BandName.fc.injEq]
        omega
      rw [hnone, Option.none_or]
      have hprev : BandName.fc (s + 1 + (m : ℤ) + 2000 - 1) = BandName.fc (s + (m : ℤ) + 2000) := by
        simp only [BandName.fc.injEq]
        ring
      rw [hprev, selectBand_of_find _ _ _ (ih m (le_refl m))]
      have hrec : fcN env s (m + 1) = updateMask (fcN env s m)
          (neqQ (unmask (selectBand (fl_stack env)
            (BandName.fl (s + 1 + (m : ℤ) + 2000))) 0) 1) := rfl
      rw [hrec]
      simp [List.find?]

theorem select_fc (env : Env) (s : ℤ) (m n : ℕ) (hnm : n ≤ m) :
    selectBand (fc_stack_go env s (s + (m : ℤ))) (BandName.fc (s + (n : ℤ) + 2000)) =
      fcN env s n :=
  selectBand_of_find _ _ _ (fc_stack_go_find env s m n hnm)

/-! ## Pointwise characterizations -/

theorem fc_str_cases (env : Env) (p : Pixel) :
    fc_str env p = some 1 ∨ fc_str env p = none := by
  unfold fc_str updateMask unmask gteZ gteQ constImage
  cases hl : env.lossyear p <;> cases ht : env.treecover2000 p <;>
    simp [hl, ht] <;> intros <;> exact le_or_lt _ _

theorem fc_str_char (env : Env) (p : Pixel) :
    fc_str env p = some 1 ↔
      ((∃ t, env.treecover2000 p = some t ∧ env.tree_cover ≤ t) ∧
        (env.lossyear p = none ∨
          ∃ j, env.lossyear p = some j ∧ env.yr_str - 2000 + 1 ≤ j)) := by
  unfold fc_str updateMask unmask gteZ gteQ constImage
  cases hl : env.lossyear p <;> cases ht : env.treecover2000 p <;> simp [hl, ht]
  exact and_comm

theorem fl_band_char (env : Env) (k : ℤ) (p : Pixel) :
    fl_band env k p = if env.lossyear p = some k then fc_str env p else none := by
  unfold fl_band updateMask eqZ
  cases hl : env.lossyear p with
  | none => simp [hl]
  | some v =>
    by_cases hv : v = k
    · subst hv
      simp [hl]
    · simp [hl, hv]

theorem fcN_cases (env : Env) (s : ℤ) (n : ℕ) (p : Pixel) :
    fcN env s n p = some 1 ∨ fcN env s n p = none := by
  induction n with
  | zero => exact fc_str_cases env p
  | succ n ih =>
    have hrec : fcN env s (n + 1) p = updateMask (fcN env s n)
        (neqQ (unmask (selectBand (fl_stack env)
          (BandName.fl (s + 1 + (n : ℤ) + 2000))) 0) 1) p := rfl
    rw [hrec]
    unfold updateMask
    cases hm : (neqQ (unmask (selectBand (fl_stack env)
        (BandName.fl (s + 1 + (n : ℤ) + 2000))) 0) 1) p with
    | none => simp
    | some v =>
      by_cases hv : v = 0
      · simp [hv]
      · simpa [hv] using ih

theorem fcN_of_base_none (env : Env) (s : ℤ) (p : Pixel) (h : fc_str env p = none) :
    ∀ n : ℕ, fcN env s n p = none := by
  intro n
  induction n with
  | zero => exact h
  | succ n ih =>
    have hrec : fcN env s (n + 1) p = updateMask (fcN env s n)
        (neqQ (unmask (selectBand (fl_stack env)
          (BandName.fl (s + 1 + (n : ℤ) + 2000))) 0) 1) p := rfl
    rw [hrec]
    unfold updateMask
    cases hm : (neqQ (unmask (selectBand (fl_stack env)
        (BandName.fl (s + 1 + (n : ℤ) + 2000))) 0) 1) p with
    | none => simp
    | some v => simp [ih]

theorem fcN_char (env : Env) (p : Pixel) :
    ∀ n : ℕ, (n : ℤ) ≤ env.yr_end - env.yr_str →
      (fcN env (env.yr_str - 2000) n p = some 1 ↔
        (fc_str env p = some 1 ∧ ∀ j : ℤ, env.lossyear p = some j →
          ¬(env.yr_str - 2000 < j ∧ j ≤ env.yr_str - 2000 + (n : ℤ)))) := by
  intro n
  induction n with
  | zero =>
    intro _
    have h0 : fcN env (env.yr_str - 2000) 0 p = fc_str env p := rfl
    rw [h0]
    constructor
    · intro h
      refine ⟨h, ?_⟩
      intro j _ hcontra
      push_cast at hcontra
      omega
    · exact fun h => h.1
  | succ n ih =>
    intro hn
    have hn' : (n : ℤ) ≤ env.yr_end - env.yr_str := by
      push_cast at hn
      omega
    have ihh := ih hn'
    have hsel : selectBand (fl_stack env)
        (BandName.fl (env.yr_str - 2000 + 1 + (n : ℤ) + 2000)) =
        fl_band env (env.yr_str - 2000 + 1 + (n : ℤ)) :=
      select_fl env (env.yr_str - 2000 + 1 + (n : ℤ)) (by omega)
        (by push_cast at hn; omega)
    have hrec : fcN env (env.yr_str - 2000) (n + 1) p =
        updateMask (fcN env (env.yr_str - 2000) n)
          (neqQ (unmask (selectBand (fl_stack env)
            (BandName.fl (env.yr_str - 2000 + 1 + (n : ℤ) + 2000))) 0) 1) p := rfl
    rw [hrec, hsel]
    have hUM : updateMask (fcN env (env.yr_str - 2000) n)
        (neqQ (unmask (fl_band env (env.yr_str - 2000 + 1 + (n : ℤ))) 0) 1) p =
        if (if (fl_band env (env.yr_str - 2000 + 1 + (n : ℤ)) p).getD 0 ≠ 1
            then (1 : ℚ) else 0) ≠ 0
          then fcN env (env.yr_str - 2000) n p else none := rfl
    rw [hUM]
    have hfl := fl_band_char env (env.yr_str - 2000 + 1 + (n : ℤ)) p
    cases hl : env.lossyear p with
    | none =>
      rw [hl] at hfl
      simp only [reduceCtorEq, if_false] at hfl
      rw [hfl]
      show fcN env (env.yr_str - 2000) n p = some 1 ↔ _
      rw [ihh]
      constructor
      · rintro ⟨h1, _⟩
        refine ⟨h1, ?_⟩
        intro j hj
        exact absurd hj (by simp)
      · rintro ⟨h1, _⟩
        refine ⟨h1, ?_⟩
        intro j hj
        rw [hl] at hj
        exact absurd hj (by simp)
    | some v =>
      rw [hl] at hfl
      by_cases hv : v = env.yr_str - 2000 + 1 + (n : ℤ)
      · rw [if_pos (by rw [hv])] at hfl
        rcases fc_str_cases env p with hb | hb
        · rw [hfl, hb]
          show (none : Option ℚ) = some 1 ↔ _
          constructor
          · intro h
            exact absurd h (by simp)
          · rintro ⟨_, h2⟩
            exact absurd ⟨by omega, by omega⟩ (h2 v rfl)
        · rw [hfl, hb]
          show fcN env (env.yr_str - 2000) n p = some 1 ↔ _
          rw [fcN_of_base_none env _ p hb n]
          constructor
          · intro h
            exact absurd h (by simp)
          · rintro ⟨h1, _⟩
            exact absurd h1 (by simp)
      · rw [if_neg (by simp [hv])] at hfl
        rw [hfl]
        show fcN env (env.yr_str - 2000) n p = some 1 ↔ _
        rw [ihh]
        constructor
        · rintro ⟨h1, h2⟩
          refine ⟨h1, ?_⟩
          intro j hj
          have hjv : j = v := (Option.some_inj.mp hj).symm
          subst hjv
          intro hcontra
          obtain ⟨hc1, hc2⟩ := hcontra
          exact (h2 j hl) ⟨hc1, by omega⟩
        · rintro ⟨h1, h2⟩
          refine ⟨h1, ?_⟩
          intro j hj
          rw [hl] at hj
          have hjv : j = v := (Option.some_inj.mp hj).symm
          subst hjv
          intro hcontra
          obtain ⟨hc1, hc2⟩ := hcontra
          exact (h2 j rfl) ⟨hc1, by omega⟩

theorem select_fc_year (env : Env) (y : ℤ) (h1 : env.yr_str ≤ y) (h2 : y ≤ env.yr_end) :
    selectBand (fc_stack env) (BandName.fc y) =
      fcN env (env.yr_str - 2000) (y - env.yr_str).toNat := by
  have hm : env.yr_end - 2000 =
      env.yr_str - 2000 + (((env.yr_end - env.yr_str).toNat : ℕ) : ℤ) := by omega
  have hn : BandName.fc y =
      BandName.fc (env.yr_str - 2000 + (((y - env.yr_str).toNat : ℕ) : ℤ) + 2000) := by
    simp only [BandName.fc.injEq]
    omega
  unfold fc_stack
  rw [hm, hn]
  exact select_fc env (env.yr_str - 2000) _ _ (by omega)

theorem updateMask_isSome {α : Type} (A : Raster α) (M : Raster ℚ) (p : Pixel)
    (h : ((updateMask A M) p).isSome = true) : (A p).isSome = true := by
  unfold updateMask at h
  cases hm : M p with
  | none => rw [hm] at h; simp at h
  | some v =>
    rw [hm] at h
    have h' : (if v ≠ 0 then A p else none).isSome = true := h
    by_cases hv : v = 0
    · rw [if_neg (by simp [hv])] at h'
      simp at h'
    · rw [if_pos hv] at h'
      exact h'

theorem fl_isSome_loss (env : Env) (p : Pixel) (y : ℤ)
    (h1 : env.yr_str < y) (h2 : y ≤ env.yr_end)
    (h : (selectBand (fl_stack env) (BandName.fl y) p).isSome = true) :
    env.lossyear p = some (y - 2000) := by
  have hname : BandName.fl y = BandName.fl ((y - 2000) + 2000) := by
    simp only [BandName.fl.injEq]
    ring
  have hsel : selectBand (fl_stack env) (BandName.fl y) = fl_band env (y - 2000) := by
    rw [hname]
    exact select_fl env (y - 2000) (by omega) (by omega)
  rw [hsel, fl_band_char] at h
  by_cases hc : env.lossyear p = some (y - 2000)
  · exact hc
  · rw [if_neg hc] at h
    simp at h

/-- A concrete input: a uniform 50 percent tree-cover field over 2000-2002,
in which the pixel (0,1) loses its forest in epoch year 1 (2001) and every
other pixel has no recorded loss. -/
def envA : Env :=
  { treecover2000 := fun _ => some 50
    lossyear := fun p => if p = ((0, 1) : Pixel) then some 1 else none
    agb := fun _ => some 100
    rpow := fun x _ => x
    pixelArea := fun _ => 900
    tree_cover := 30
    yr_str := 2000
    yr_end := 2002 }

/-- C1: for every year y in [yr_str, yr_end], the band fc y of the year loop
is defined (with value 1) exactly at pixels that are defined in the baseline
mask and whose recorded loss year, if any, lies outside the interval
(yr_str-2000, y-2000]. -/
theorem claim1_fc_band_char (env : Env) (p : Pixel) (y : ℤ)
    (h1 : env.yr_str ≤ y) (h2 : y ≤ env.yr_end) :
    (selectBand (fc_stack env) (BandName.fc y) p = some 1 ↔
      ((fc_str env p).isSome ∧ ∀ j : ℤ, env.lossyear p = some j →
        ¬(env.yr_str - 2000 < j ∧ j ≤ y - 2000))) ∧
    (∀ v, selectBand (fc_stack env) (BandName.fc y) p = some v → v = 1) := by
  have hsel := select_fc_year env y h1 h2
  have hchar := fcN_char env p (y - env.yr_str).toNat (by omega)
  constructor
  · rw [hsel, hchar]
    constructor
    · rintro ⟨hb, hnl⟩
      refine ⟨by rw [hb]; rfl, ?_⟩
      intro j hj hcontra
      exact (hnl j hj) ⟨hcontra.1, by omega⟩
    · rintro ⟨hb, hnl⟩
      have hb1 : fc_str env p = some 1 := by
        rcases fc_str_cases env p with h | h
        · exact h
        · rw [h] at hb
          simp at hb
      refine ⟨hb1, ?_⟩
      intro j hj hcontra
      exact (hnl j hj) ⟨hcontra.1, by omega⟩
  · intro v hv
    rw [hsel] at hv
    rcases fcN_cases env (env.yr_str - 2000) ((y - env.yr_str).toNat) p with h | h
    · rw [h] at hv
      exact (Option.some_inj.mp hv).symm
    · rw [h] at hv
      exact absurd hv (by simp)

/-- Witness for C1: the characterization applied at the lost pixel (0,1) in
the year 2001 of the concrete input. -/
theorem claim1_witness :
    envA.yr_str ≤ 2001 ∧ (2001 : ℤ) ≤ envA.yr_end ∧
      ((selectBand (fc_stack envA) (BandName.fc 2001) ((0, 1) : Pixel) = some 1 ↔
        ((fc_str envA ((0, 1) : Pixel)).isSome ∧
          ∀ j : ℤ, envA.lossyear ((0, 1) : Pixel) = some j →
            ¬(envA.yr_str - 2000 < j ∧ j ≤ 2001 - 2000))) ∧
      (∀ v, selectBand (fc_stack envA) (BandName.fc 2001) ((0, 1) : Pixel) = some v → v = 1)) :=
  ⟨by decide, by decide, claim1_fc_band_char envA ((0, 1) : Pixel) 2001 (by decide) (by decide)⟩

/-- C2: monotonic shrinkage of the forest mask: whenever fc y is defined at a
pixel for a year y in (yr_str, yr_end], the previous band fc (y-1) is defined
there too. -/
theorem claim2_monotonic (env : Env) (p : Pixel) (y : ℤ)
    (h1 : env.yr_str < y) (h2 : y ≤ env.yr_end) :
    (selectBand (fc_stack env) (BandName.fc y) p).isSome = true →
      (selectBand (fc_stack env) (BandName.fc (y - 1)) p).isSome = true := by
  intro h
  rw [select_fc_year env y (by omega) h2] at h
  rw [select_fc_year env (y - 1) (by omega) (by omega)]
  have hn : (y - env.yr_str).toNat = (y - 1 - env.yr_str).toNat + 1 := by omega
  rw [hn] at h
  exact updateMask_isSome (fcN env (env.yr_str - 2000) ((y - 1 - env.yr_str).toNat))
    (neqQ (unmask (selectBand (fl_stack env)
      (BandName.fl (env.yr_str - 2000 + 1 + (((y - 1 - env.yr_str).toNat : ℕ) : ℤ) + 2000))) 0) 1)
    p h

/-- Witness for C2: shrinkage applied in the year 2001 at the kept pixel
(0,0) of the concrete input. -/
theorem claim2_witness :
    envA.yr_str < 2001 ∧ (2001 : ℤ) ≤ envA.yr_end ∧
      (selectBand (fc_stack envA) (BandName.fc (2001 - 1)) ((0, 0) : Pixel)).isSome = true :=
  ⟨by decide, by decide,
    claim2_monotonic envA ((0, 0) : Pixel) 2001 (by decide) (by decide) (by decide)⟩

/-- A concrete input refuting the stated baseline membership rule: tree cover
50 percent, threshold 30, start year 2000, and a recorded loss-year value of
0 (never lost) at every pixel. -/
def envB : Env :=
  { treecover2000 := fun _ => some 50
    lossyear := fun _ => some 0
    agb := fun _ => none
    rpow := fun x _ => x
    pixelArea := fun _ => 900
    tree_cover := 30
    yr_str := 2000
    yr_end := 2002 }

/-- Counterexample to C3: in the section-8 scenario (threshold 30, start year
2000) a pixel with treecover2000 = 50 and a defined lossyear of 0 is NOT in
the baseline mask: `lossyear.gte(1)` evaluates to 0 there, `unmask(1)` does
not fire because the value is defined, and the pixel is masked out. -/
theorem claim3_counterexample :
    envB.tree_cover = 30 ∧ envB.yr_str = 2000 ∧
      envB.treecover2000 ((0, 0) : Pixel) = some 50 ∧
      envB.lossyear ((0, 0) : Pixel) = some 0 ∧
      fc_str envB ((0, 0) : Pixel) = none := by
  refine ⟨rfl, rfl, rfl, rfl, ?_⟩
  decide

/-- C3 (amended): a pixel is defined (value 1) in the baseline band iff
treecover2000 is defined with a value at least the threshold (inclusive) and
the lossyear band is either undefined (kept via the unmask(1) fallback) or
holds a value at least yr_str-2000+1; a pixel with a defined lossyear of 0
fails the condition and is excluded. -/
theorem claim3_baseline_char (env : Env) (p : Pixel) :
    (fc_str env p = some 1 ↔
      ((∃ t, env.treecover2000 p = some t ∧ env.tree_cover ≤ t) ∧
        (env.lossyear p = none ∨
          ∃ j, env.lossyear p = some j ∧ env.yr_str - 2000 + 1 ≤ j))) ∧
    (fc_str env p = some 1 ∨ fc_str env p = none) :=
  ⟨fc_str_char env p, fc_str_cases env p⟩

/-- A concrete invalid configuration: canopy-cover threshold 150, outside
[0, 100]. -/
def envC : Env :=
  { treecover2000 := fun _ => some 50
    lossyear := fun _ => none
    agb := fun _ => none
    rpow := fun x _ => x
    pixelArea := fun _ => 900
    tree_cover := 150
    yr_str := 2000
    yr_end := 2021 }

/-- Counterexample to C4: the threshold-150 configuration is invalid, yet the
script performs no validation (it accepts every configuration) and the raster
pipeline still runs, producing an ordinary masked value instead of failing. -/
theorem claim4_counterexample :
    ¬ configValid envC ∧ validateConfig envC = Except.ok () ∧
      fc_str envC ((0, 0) : Pixel) = none := by
  refine ⟨?_, rfl, by decide⟩
  intro h
  rcases h with ⟨_, _, _, _, h5⟩
  exact absurd h5 (show ¬((150 : ℚ) ≤ 100) by norm_num)

/-- C4 (amended): the program performs no eager configuration validation;
an invalid configuration flows unchecked into the raster computation, e.g. a
threshold above 100 silently yields an everywhere-undefined baseline mask
rather than a failure. -/
theorem claim4_no_validation (env : Env) (hT : 100 < env.tree_cover)
    (hc : ∀ p t, env.treecover2000 p = some t → t ≤ 100) :
    validateConfig env = Except.ok () ∧ ∀ p, fc_str env p = none := by
  refine ⟨rfl, ?_⟩
  intro p
  unfold fc_str updateMask unmask gteZ gteQ constImage
  cases hl : env.lossyear p <;> cases ht : env.treecover2000 p <;> simp [hl, ht] <;>
    intros <;> have := hc p _ ht <;> linarith

/-- Witness for the amended C4: the invalid threshold-150 configuration is
accepted and its baseline mask is empty. -/
theorem claim4_witness :
    (100 : ℚ) < envC.tree_cover ∧
      (∀ p t, envC.treecover2000 p = some t → t ≤ 100) ∧
      (validateConfig envC = Except.ok () ∧ ∀ p, fc_str envC p = none) :=
  ⟨by norm_num [envC], fun p t ht => by
      have h50 : (50 : ℚ) = t := Option.some_inj.mp ht
      rw [← h50]
      norm_num,
    claim4_no_validation envC (by norm_num [envC]) (fun p t ht => by
      have h50 : (50 : ℚ) = t := Option.some_inj.mp ht
      rw [← h50]
      norm_num)⟩

/-- C5: biomass derivation: where AGB is defined with value a, BGB is
0.489 * a ** 0.89, TotalCarbon is (a + BGB) * 0.5 and TotalCO2 is
TotalCarbon * 3.67; where AGB is undefined all three are undefined. -/
theorem claim5_biomass (env : Env) (p : Pixel) :
    (env.agb p = none → bgb env p = none ∧ tbcarbon env p = none ∧ teco2 env p = none) ∧
    (∀ a, env.agb p = some a →
      bgb env p = some (489/1000 * env.rpow a (89/100)) ∧
      tbcarbon env p = some ((a + 489/1000 * env.rpow a (89/100)) * (1/2)) ∧
      teco2 env p = some (((a + 489/1000 * env.rpow a (89/100)) * (1/2)) * (367/100))) := by
  constructor
  · intro h
    refine ⟨?_, ?_, ?_⟩ <;> simp [bgb, tbcarbon, teco2, expr1, expr2, h]
  · intro a h
    refine ⟨?_, ?_, ?_⟩ <;> simp [bgb, tbcarbon, teco2, expr1, expr2, h] <;> ring

/-- Witness for C5: the biomass formulas evaluated at a pixel with AGB 100 of
the concrete input. -/
theorem claim5_witness :
    envA.agb ((0, 0) : Pixel) = some 100 ∧
      bgb envA ((0, 0) : Pixel) = some (489/1000 * envA.rpow 100 (89/100)) ∧
      tbcarbon envA ((0, 0) : Pixel) =
        some ((100 + 489/1000 * envA.rpow 100 (89/100)) * (1/2)) ∧
      teco2 envA ((0, 0) : Pixel) =
        some (((100 + 489/1000 * envA.rpow 100 (89/100)) * (1/2)) * (367/100)) := by
  have h := (claim5_biomass envA ((0, 0) : Pixel)).2 100 rfl
  exact ⟨rfl, h.1, h.2.1, h.2.2⟩

/-- C6: for every year y in (yr_str, yr_end], the loss band fl y equals the
baseline mask restricted to pixels whose lossyear equals y - 2000, and a
pixel outside the baseline mask is never defined in fl y. -/
theorem claim6_loss_band (env : Env) (p : Pixel) (y : ℤ)
    (h1 : env.yr_str < y) (h2 : y ≤ env.yr_end) :
    selectBand (fl_stack env) (BandName.fl y) p =
      (if env.lossyear p = some (y - 2000) then fc_str env p else none) ∧
    (fc_str env p = none → selectBand (fl_stack env) (BandName.fl y) p = none) := by
  have hname : BandName.fl y = BandName.fl ((y - 2000) + 2000) := by
    simp only [BandName.fl.injEq]
    ring
  have hsel : selectBand (fl_stack env) (BandName.fl y) = fl_band env (y - 2000) := by
    rw [hname]
    exact select_fl env (y - 2000) (by omega) (by omega)
  constructor
  · rw [hsel]
    exact fl_band_char env (y - 2000) p
  · intro hb
    rw [hsel, fl_band_char env (y - 2000) p, hb]
    split_ifs <;> rfl

/-- Witness for C6: the loss band of 2001 evaluated at the lost pixel (0,1)
of the concrete input. -/
theorem claim6_witness :
    envA.yr_str < 2001 ∧ (2001 : ℤ) ≤ envA.yr_end ∧
      (selectBand (fl_stack envA) (BandName.fl 2001) ((0, 1) : Pixel) =
        (if envA.lossyear ((0, 1) : Pixel) = some (2001 - 2000)
          then fc_str envA ((0, 1) : Pixel) else none) ∧
      (fc_str envA ((0, 1) : Pixel) = none →
        selectBand (fl_stack envA) (BandName.fl 2001) ((0, 1) : Pixel) = none)) :=
  ⟨by decide, by decide, claim6_loss_band envA ((0, 1) : Pixel) 2001 (by decide) (by decide)⟩

/-- C7: mutual exclusivity of loss attribution: two distinct in-range years
cannot both have their loss band defined at the same pixel. -/
theorem claim7_exclusive (env : Env) (p : Pixel) (y1 y2 : ℤ)
    (h11 : env.yr_str < y1) (h12 : y1 ≤ env.yr_end)
    (h21 : env.yr_str < y2) (h22 : y2 ≤ env.yr_end) (hne : y1 ≠ y2) :
    ¬((selectBand (fl_stack env) (BandName.fl y1) p).isSome = true ∧
      (selectBand (fl_stack env) (BandName.fl y2) p).isSome = true) := by
  rintro ⟨ha, hb⟩
  have ha' := fl_isSome_loss env p y1 h11 h12 ha
  have hb' := fl_isSome_loss env p y2 h21 h22 hb
  rw [ha'] at hb'
  have : y1 - 2000 = y2 - 2000 := Option.some_inj.mp hb'
  omega

/-- Witness for C7: exclusivity of the 2001 and 2002 loss bands at the lost
pixel (0,1) of the concrete input. -/
theorem claim7_witness :
    envA.yr_str < 2001 ∧ (2001 : ℤ) ≤ envA.yr_end ∧
      envA.yr_str < 2002 ∧ (2002 : ℤ) ≤ envA.yr_end ∧ (2001 : ℤ) ≠ 2002 ∧
      ¬((selectBand (fl_stack envA) (BandName.fl 2001) ((0, 1) : Pixel)).isSome = true ∧
        (selectBand (fl_stack envA) (BandName.fl 2002) ((0, 1) : Pixel)).isSome = true) :=
  ⟨by decide, by decide, by decide, by decide, by decide,
    claim7_exclusive envA ((0, 1) : Pixel) 2001 2002
      (by decide) (by decide) (by decide) (by decide) (by decide)⟩

/-- C8: for every year y in [yr_str, yr_end], the carbon band cb y equals
TotalCarbon restricted to the pixels where fc y is defined (whose value is
then 1): it is defined only inside the year's forest mask and carries the
pixel's TotalCarbon value there. -/
theorem claim8_carbon_subset (env : Env) (p : Pixel) (y : ℤ)
    (h1 : env.yr_str ≤ y) (h2 : y ≤ env.yr_end) :
    selectBand (cb_stack env) (BandName.cb y) p =
      (if (selectBand (fc_stack env) (BandName.fc y) p).isSome
        then tbcarbon env p else none) := by
  have hname : BandName.cb y = BandName.cb ((y - 2000) + 2000) := by
    simp only [BandName.cb.injEq]
    ring
  have hsel : selectBand (cb_stack env) (BandName.cb y) = cb_band env (y - 2000) := by
    rw [hname]
    exact select_cb env (y - 2000) (by omega) (by omega)
  rw [hsel]
  have hfcname : BandName.fc (y - 2000 + 2000) = BandName.fc y := by
    simp only [BandName.fc.injEq]
    ring
  unfold cb_band updateMask eqQ
  rw [hfcname]
  rcases hfc : selectBand (fc_stack env) (BandName.fc y) p with _ | v
  · simp [hfc]
  · have hv : v = 1 := by
      have hy := select_fc_year env y h1 h2
      rw [hy] at hfc
      rcases fcN_cases env (env.yr_str - 2000) ((y - env.yr_str).toNat) p with h | h
      · rw [h] at hfc
        exact (Option.some_inj.mp hfc).symm
      · rw [h] at hfc
        exact absurd hfc (by simp)
    subst hv
    simp [hfc]

/-- Witness for C8: the carbon band of 2001 evaluated at the kept pixel
(0,0) of the concrete input. -/
theorem claim8_witness :
    envA.yr_str ≤ 2001 ∧ (2001 : ℤ) ≤ envA.yr_end ∧
      selectBand (cb_stack envA) (BandName.cb 2001) ((0, 0) : Pixel) =
        (if (selectBand (fc_stack envA) (BandName.fc 2001) ((0, 0) : Pixel)).isSome
          then tbcarbon envA ((0, 0) : Pixel) else none) :=
  ⟨by decide, by decide, claim8_carbon_subset envA ((0, 0) : Pixel) 2001 (by decide) (by decide)⟩

/-- C9: uniform hectare weighting: the areas stack has exactly the bands of
the assembled output stack (fc, fl, cb and ce alike, in order and by name),
each one multiplied pointwise by pixel-area divided by 10000; no band is
exempt. -/
theorem claim9_hectare_weighting (env : Env) :
    List.Forall₂ (fun rb b : BandName × Raster ℚ => b.1 = rb.1 ∧
        ∀ p, b.2 p = (rb.2 p).map (fun v => v * (env.pixelArea p / 10000)))
      (output env) (areas env) ∧
    output env = fc_stack env ++ fl_stack env ++ cb_stack env ++ ce_stack env := by
  refine ⟨?_, rfl⟩
  unfold areas
  rw [List.forall₂_map_right_iff, List.forall₂_same]
  intro b _
  refine ⟨rfl, ?_⟩
  intro p
  unfold multiplyR pixelAreaHa
  cases h : b.2 p <;> simp [h]

/-- C10: the collection handed to the zonal reducer is sa_area, built with
the first addArea, so every output row keeps ha = geometry area times 0.0001
while its area_ha attribute is left untouched; the later addArea rebinding
writes area_ha on the separate, never-read collection and has no effect on
the exported statistics. -/
theorem claim10_stats_area (env : Env) (sa0 : List Feature) :
    stats env sa0 = reduceRegions (areas env) (sa0.map addArea) ∧
    List.Forall₂
      (fun (g : Feature) (row : Feature × List (BandName × ℚ)) =>
        row.1 = addArea g ∧ row.1.ha = some (g.geomArea * (1/10000)) ∧
        row.1.area_ha = g.area_ha)
      sa0 (stats env sa0) ∧
    (∀ f g : Feature → Feature, scriptStats env sa0 f = scriptStats env sa0 g) := by
  refine ⟨rfl, ?_, fun f g => rfl⟩
  show List.Forall₂ _ sa0 ((sa0.map addArea).map
    (fun f => (f, (areas env).map (fun b => (b.1, sumOver f b.2)))))
  rw [List.forall₂_map_right_iff, List.forall₂_map_right_iff, List.forall₂_same]
  intro x _
  exact ⟨rfl, rfl, rfl⟩
